import Mathlib

/-!
Shallow embedding of `src/assignment3.py`.

Python strings are modelled as `List Char`; a parsed CSV row is a
`List (List Char)`; a `Record` (the `dict(zip(column_names, row))` of line 36)
is a structure with one `Option (List Char)` per column name, `none` meaning
the key is absent from the dict.  Fallible Python code (KeyError,
ZeroDivisionError, csv.Error, ValueError) is modelled with `Except String`.

Library calls are embedded by their documented CPython semantics:
* `csv.reader(io.StringIO(s), delimiter=',')` (line 32) is the CPython `_csv`
  reader automaton for the default dialect (quotechar `"`, doublequote,
  non-strict, no escapechar), consuming the whole text character by
  character (`csvAux`);
* `re.search` over an alternation of plain literals (lines 55 and 86) finds
  the leftmost position at which some alternative matches, trying the
  alternatives in listed order at each position (`findFirst`); the pattern
  `\.(jpg|gif|png)$` of line 51 with `re.IGNORECASE` matches exactly the
  ASCII-case-insensitive suffixes `.ext` and `.ext` followed by one final
  newline, since `$` also matches just before a trailing newline
  (`imageMatch`);
* the dict `browser_counts` (lines 80-89) keeps its keys in insertion order,
  modelled as an ordered association list; `max(d, key=d.get)` (line 91)
  folds over the keys keeping the current key unless a later key is strictly
  greater (`pyFoldMax`), hence returns the first key attaining the maximum;
* Python `/` on ints (line 66) is exact real division guarded by
  ZeroDivisionError, modelled over `Rat` (`pydiv`).
-/

deriving instance DecidableEq for Except

namespace Assignment3

/-- States of the CPython `_csv` reader automaton (default dialect). -/
inductive CsvState where
  | startRecord
  | startField
  | inField
  | inQuoted
  | quoteInQuoted
  | eatCrnl
deriving DecidableEq

/-- The CPython `_csv` reader automaton for the default dialect with
delimiter `','`, run over the whole input text.  Arguments: current state,
characters of the field being built, fields of the row being built,
rows already produced, remaining input.  A row is emitted each time a record
ends; `eatCrnl` absorbs a CR so that `\r`, `\r\n` and `\n` all end a record,
and a stray character after a CR on the same line is the csv error
"new-line character seen in unquoted field".  Models `csv.reader` at
src/assignment3.py line 32. -/
def csvAux : CsvState → List Char → List (List Char) → List (List (List Char)) → List Char →
    Except String (List (List (List Char)))
  | .startRecord, _, _, rows, [] => .ok rows
  | .startField, _, row, rows, [] => .ok (rows ++ [row ++ [[]]])
  | .inField, f, row, rows, [] => .ok (rows ++ [row ++ [f]])
  | .inQuoted, f, row, rows, [] => .ok (rows ++ [row ++ [f]])
  | .quoteInQuoted, f, row, rows, [] => .ok (rows ++ [row ++ [f]])
  | .eatCrnl, _, row, rows, [] => .ok (rows ++ [row])
  | .startRecord, _, _, rows, c :: cs =>
      if c = '\n' then csvAux .startRecord [] [] (rows ++ [[]]) cs
      else if c = '\r' then csvAux .eatCrnl [] [] rows cs
      else if c = '"' then csvAux .inQuoted [] [] rows cs
      else if c = ',' then csvAux .startField [] [[]] rows cs
      else csvAux .inField [c] [] rows cs
  | .startField, _, row, rows, c :: cs =>
      if c = '\n' then csvAux .startRecord [] [] (rows ++ [row ++ [[]]]) cs
      else if c = '\r' then csvAux .eatCrnl [] (row ++ [[]]) rows cs
      else if c = '"' then csvAux .inQuoted [] row rows cs
      else if c = ',' then csvAux .startField [] (row ++ [[]]) rows cs
      else csvAux .inField [c] row rows cs
  | .inField, f, row, rows, c :: cs =>
      if c = '\n' then csvAux .startRecord [] [] (rows ++ [row ++ [f]]) cs
      else if c = '\r' then csvAux .eatCrnl [] (row ++ [f]) rows cs
      else if c = ',' then csvAux .startField [] (row ++ [f]) rows cs
      else csvAux .inField (f ++ [c]) row rows cs
  | .inQuoted, f, row, rows, c :: cs =>
      if c = '"' then csvAux .quoteInQuoted f row rows cs
      else csvAux .inQuoted (f ++ [c]) row rows cs
  | .quoteInQuoted, f, row, rows, c :: cs =>
      if c = '"' then csvAux .inQuoted (f ++ [c]) row rows cs
      else if c = '\n' then csvAux .startRecord [] [] (rows ++ [row ++ [f]]) cs
      else if c = '\r' then csvAux .eatCrnl [] (row ++ [f]) rows cs
      else if c = ',' then csvAux .startField [] (row ++ [f]) rows cs
      else csvAux .inField (f ++ [c]) row rows cs
  | .eatCrnl, _, row, rows, c :: cs =>
      if c = '\n' then csvAux .startRecord [] [] (rows ++ [row]) cs
      else if c = '\r' then csvAux .eatCrnl [] row rows cs
      else .error "new-line character seen in unquoted field"

/-- All rows produced by `csv.reader` on the given text. -/
def csvRows (s : String) : Except String (List (List (List Char))) :=
  csvAux .startRecord [] [] [] s.toList

/-- One parsed row, i.e. the dict `dict(zip(column_names, row))` of
src/assignment3.py line 36: a field is `none` exactly when its column name
received no value from `zip`. -/
structure Record where
  path : Option (List Char)
  datetime_accessed : Option (List Char)
  browser : Option (List Char)
  request : Option (List Char)
  size : Option (List Char)
deriving DecidableEq

/-- `dict(zip(['path','datetime_accessed','browser','request','size'], row))`:
positional pairing stopping at the shorter list, extra row values dropped,
missing ones absent. -/
def mkRecord (row : List (List Char)) : Record :=
  { path := row[0]?, datetime_accessed := row[1]?, browser := row[2]?,
    request := row[3]?, size := row[4]? }

/-- `read_csv` of src/assignment3.py lines 23-39. -/
def read_csv (weblog_data : String) : Except String (List Record) :=
  (csvRows weblog_data).map (fun rows => rows.map mkRecord)

/-- `image_extensions` of src/assignment3.py line 50. -/
def image_extensions : List (List Char) := ["jpg".toList, "gif".toList, "png".toList]

/-- `re.search(r'\.(jpg|gif|png)$', p, re.IGNORECASE)` of src/assignment3.py
lines 51 and 55, as a Bool: the `$`-anchored pattern matches exactly when,
ASCII-case-insensitively, the text ends in `.ext`, or ends in `.ext` directly
followed by one final newline (Python `$` also matches just before a newline
that terminates the string). -/
def imageMatch (p : List Char) : Bool :=
  image_extensions.any fun e =>
    ('.' :: e).isSuffixOf (p.map Char.toLower) ||
      ('.' :: (e ++ ['\n'])).isSuffixOf (p.map Char.toLower)

/-- The loop of src/assignment3.py lines 54-56 with running count `n`;
`record['path']` on a dict without that key raises KeyError. -/
def countImagesAux (n : Nat) : List Record → Except String Nat
  | [] => .ok n
  | r :: rs =>
      match r.path with
      | none => .error "KeyError: path"
      | some p => countImagesAux (if imageMatch p then n + 1 else n) rs

/-- `count_images` of src/assignment3.py lines 42-58. -/
def count_images (records : List Record) : Except String Nat :=
  countImagesAux 0 records

/-- Python `/` on integers: exact division, ZeroDivisionError on zero. -/
def pydiv (a b : Int) : Except String Rat :=
  if b = 0 then .error "ZeroDivisionError: division by zero"
  else .ok ((a : Rat) / (b : Rat))

/-- `find_image_percentage` of src/assignment3.py lines 60-67:
`(image_count / rows_total) * 100`. -/
def find_image_percentage (image_count rows_total : Int) : Except String Rat :=
  (pydiv image_count rows_total).map (fun q => q * 100)

/-- `browser_types` of src/assignment3.py line 78, in source order. -/
def browser_types : List (List Char) :=
  ["Firefox".toList, "Chrome".toList, "Internet Explorer".toList, "Safari".toList]

/-- `re.search(r'(Firefox|Chrome|Internet Explorer|Safari)', s)` of
src/assignment3.py lines 79 and 86, returning `match.group(1)`: scan the
positions of `s` left to right and, at the first position where one of the
literal alternatives starts, return the first such alternative in listed
order. -/
def findFirst (pats : List (List Char)) : List Char → Option (List Char)
  | [] => pats.find? fun p => p.isPrefixOf ([] : List Char)
  | c :: cs =>
      match pats.find? (fun p => p.isPrefixOf (c :: cs)) with
      | some p => some p
      | none => findFirst pats cs

/-- `browser_counts` after the initialisation loop of src/assignment3.py
lines 80-83: an insertion-ordered dict mapping each browser type to 0. -/
def initCounts : List (List Char × Nat) := browser_types.map fun b => (b, 0)

/-- `browser_counts[found_browser] += 1` of src/assignment3.py line 89. -/
def incr (k : List Char) (d : List (List Char × Nat)) : List (List Char × Nat) :=
  d.map fun e => if e.1 = k then (e.1, e.2 + 1) else e

/-- `browser_counts.get(k)` (all keys used are present; absent keys would give
Python `None`, modelled as 0, which no claim exercises). -/
def dictGet (d : List (List Char × Nat)) (k : List Char) : Nat :=
  ((d.find? fun e => e.1 == k).map Prod.snd).getD 0

/-- The loop of src/assignment3.py lines 85-89 over running tally `t`;
`record['browser']` on a dict without that key raises KeyError. -/
def tallyAux (t : List (List Char × Nat)) : List Record →
    Except String (List (List Char × Nat))
  | [] => .ok t
  | r :: rs =>
      match r.browser with
      | none => .error "KeyError: browser"
      | some s =>
          match findFirst browser_types s with
          | none => tallyAux t rs
          | some b => tallyAux (incr b t) rs

/-- The final `browser_counts` dict of `find_most_used_browser`. -/
def tallyBrowsers (records : List Record) : Except String (List (List Char × Nat)) :=
  tallyAux initCounts records

/-- Python `max` over a nonempty iterable with a key function: start from the
first element and replace the current best only when a later element is
strictly greater. -/
def pyFoldMax {α : Type} (f : α → Nat) (b : α) (ks : List α) : α :=
  ks.foldl (fun b y => if f y > f b then y else b) b

/-- Python `max(ks, key=f)`; `none` models the ValueError on an empty
iterable. -/
def pymaxList {α : Type} (f : α → Nat) : List α → Option α
  | [] => none
  | k :: ks => some (pyFoldMax f k ks)

/-- `find_most_used_browser` of src/assignment3.py lines 69-92:
`max(browser_counts, key=browser_counts.get)` over the dict keys in
insertion order. -/
def find_most_used_browser (records : List Record) : Except String (List Char) :=
  match tallyBrowsers records with
  | .error e => .error e
  | .ok d =>
      match pymaxList (dictGet d) (d.map Prod.fst) with
      | none => .error "ValueError: max arg is an empty sequence"
      | some b => .ok b

/-! Claim-side definitions: plain comma splitting, Python line structure, and
substring occurrence, written to the specification wording so theorems can
compare them with the source-side functions above. -/

/-- Plain splitting at every comma, the field accumulated so far being `f`:
no quoting or escape interpretation. -/
def splitCommaFrom (f : List Char) : List Char → List (List Char)
  | [] => [f]
  | c :: cs => if c = ',' then f :: splitCommaFrom [] cs else splitCommaFrom (f ++ [c]) cs

/-- Plain splitting of a whole line at each comma. -/
def splitComma (cs : List Char) : List (List Char) := splitCommaFrom [] cs

/-- Characters of the current line, up to (excluding) the first newline. -/
def headLine : List Char → List Char
  | [] => []
  | c :: cs => if c = '\n' then [] else c :: headLine cs

/-- Characters after the first newline (or `[]` when there is none). -/
def afterNl : List Char → List Char
  | [] => []
  | c :: cs => if c = '\n' then cs else afterNl cs

/-- The lines of a text the way Python line iteration produces them: a final
newline terminates the last line instead of opening an empty one, while every
other newline separates two lines; the empty text has no lines. -/
def pyLinesL : List Char → List (List Char)
  | [] => []
  | c :: cs =>
      if c = '\n' then [] :: pyLinesL cs
      else
        match pyLinesL cs with
        | [] => [[c]]
        | l :: ls => (c :: l) :: ls

/-- The csv row belonging to one quote-free line: a blank line gives the empty
row, any other line is split at its commas. -/
def lineFields (l : List Char) : List (List Char) :=
  if l = [] then [] else splitComma l

/-- All csv rows of a quote-free, CR-free text, line by line. -/
def linesRows (cs : List Char) : List (List (List Char)) :=
  (pyLinesL cs).map lineFields

/-- Splitting a text at every newline (one more part than newlines). -/
def splitNl : List Char → List (List Char)
  | [] => [[]]
  | c :: cs =>
      if c = '\n' then [] :: splitNl cs
      else
        match splitNl cs with
        | [] => [[c]]
        | l :: ls => (c :: l) :: ls

/-- Remove the trailing run of empty lines. -/
def dropTrailingEmpty (ls : List (List Char)) : List (List Char) :=
  (ls.reverse.dropWhile fun l => l.isEmpty).reverse

/-- The claim C7 reading of "number of lines in the text that are not trailing
empty lines". -/
def claimC7LineCount (s : String) : Nat :=
  (dropTrailingEmpty (splitNl s.toList)).length

/-- `q` occurs as a (contiguous) substring of the text. -/
def occursIn (q : List Char) : List Char → Bool
  | [] => q.isPrefixOf ([] : List Char)
  | c :: cs => q.isPrefixOf (c :: cs) || occursIn q cs

/-- The three-line input text of the end-to-end example in the
specification. -/
def exampleText : String :=
  "/img/a.jpg,2020-01-01,Mozilla Firefox 88,GET /img/a.jpg,200\n/index.html,2020-01-01,Chrome 90,GET /index.html,150\n/pics/b.PNG,2020-01-01,Firefox 89,GET /pics/b.PNG,300\n"

/-! Characterisation of the csv automaton on quote-free, CR-free input. -/

lemma lineFields_cons (c : Char) (l : List Char) :
    lineFields (c :: l) = splitCommaFrom [] (c :: l) := by
  simp [lineFields, splitComma]

lemma splitCommaFrom_comma (f : List Char) (cs : List Char) :
    splitCommaFrom f (',' :: cs) = f :: splitCommaFrom [] cs := by
  simp [splitCommaFrom]

lemma splitCommaFrom_other {c : Char} (h : c ≠ ',') (f : List Char) (cs : List Char) :
    splitCommaFrom f (c :: cs) = splitCommaFrom (f ++ [c]) cs := by
  simp [splitCommaFrom, h]

lemma splitCommaFrom_ne_nil (f : List Char) : ∀ cs, splitCommaFrom f cs ≠ [] := by
  intro cs
  induction cs generalizing f with
  | nil => simp [splitCommaFrom]
  | cons c cs ih =>
    by_cases hc : c = ','
    · subst hc; simp [splitCommaFrom]
    · simpa [splitCommaFrom, hc] using ih (f ++ [c])

lemma pyLinesL_decomp : ∀ cs : List Char, cs ≠ [] →
    pyLinesL cs = headLine cs :: pyLinesL (afterNl cs) := by
  intro cs
  induction cs with
  | nil => intro h; exact absurd rfl h
  | cons c cs ih =>
    intro _
    by_cases hc : c = '\n'
    · subst hc; simp [pyLinesL, headLine, afterNl]
    · rcases Decidable.em (cs = []) with h0 | h0
      · subst h0; simp [pyLinesL, headLine, afterNl, hc]
      · simp [pyLinesL, headLine, afterNl, hc, ih h0]

lemma linesRows_decomp (cs : List Char) (h : cs ≠ []) :
    linesRows cs = lineFields (headLine cs) :: linesRows (afterNl cs) := by
  simp [linesRows, pyLinesL_decomp cs h]

lemma startField_eq_inField (cs : List Char) (row : List (List Char))
    (rows : List (List (List Char))) (h : cs.head? ≠ some '"') :
    csvAux .startField [] row rows cs = csvAux .inField [] row rows cs := by
  cases cs with
  | nil => rfl
  | cons c cs =>
    have hc : c ≠ '"' := fun e => h (by simp [e])
    by_cases h1 : c = '\n'
    · subst h1; simp [csvAux]
    · by_cases h2 : c = '\r'
      · subst h2; simp [csvAux]
      · by_cases h4 : c = ','
        · subst h4; simp [csvAux]
        · simp [csvAux, h1, h2, h4, hc]

lemma csvAux_clean : ∀ cs : List Char, (∀ c ∈ cs, c ≠ '"' ∧ c ≠ '\r') →
    (∀ rows, csvAux .startRecord [] [] rows cs = .ok (rows ++ linesRows cs)) ∧
    (∀ f row rows, csvAux .inField f row rows cs =
      .ok (rows ++ (row ++ splitCommaFrom f (headLine cs)) :: linesRows (afterNl cs))) := by
  intro cs
  induction cs with
  | nil =>
    intro _
    refine ⟨fun rows => by simp [csvAux, linesRows, pyLinesL], fun f row rows => ?_⟩
    simp [csvAux, linesRows, pyLinesL, headLine, afterNl, splitCommaFrom]
  | cons c cs ih =>
    intro h
    have hc : c ≠ '"' ∧ c ≠ '\r' := h c (by simp)
    have htl : ∀ x ∈ cs, x ≠ '"' ∧ x ≠ '\r' := fun x hx => h x (by simp [hx])
    have ihh := ih htl
    have hsf : cs.head? ≠ some '"' := by
      cases cs with
      | nil => simp
      | cons d ds => simpa using (htl d (by simp)).1
    constructor
    · intro rows
      by_cases h1 : c = '\n'
      · subst h1
        simp only [csvAux, if_pos rfl]
        rw [ihh.1 (rows ++ [[]]), linesRows_decomp ('\n' :: cs) (by simp)]
        simp [headLine, afterNl, lineFields]
      · by_cases h4 : c = ','
        · subst h4
          simp only [csvAux, if_neg (by decide : ¬((',' : Char) = '\n')),
            if_neg (by decide : ¬((',' : Char) = '\r')),
            if_neg (by decide : ¬((',' : Char) = '"')), if_pos rfl]
          rw [startField_eq_inField cs [[]] rows hsf, ihh.2 [] [[]] rows,
            linesRows_decomp (',' :: cs) (by simp)]
          simp [headLine, afterNl, lineFields_cons, splitCommaFrom_comma]
        · simp only [csvAux, if_neg h1, if_neg hc.2, if_neg hc.1, if_neg h4]
          rw [ihh.2 [c] [] rows, linesRows_decomp (c :: cs) (by simp)]
          simp [headLine, afterNl, h1, lineFields_cons, splitCommaFrom_other h4]
    · intro f row rows
      by_cases h1 : c = '\n'
      · subst h1
        simp only [csvAux, if_pos rfl]
        rw [ihh.1 (rows ++ [row ++ [f]])]
        simp [headLine, afterNl, splitCommaFrom]
      · by_cases h4 : c = ','
        · subst h4
          simp only [csvAux, if_neg (by decide : ¬((',' : Char) = '\n')),
            if_neg (by decide : ¬((',' : Char) = '\r')), if_pos rfl]
          rw [startField_eq_inField cs (row ++ [f]) rows hsf, ihh.2 [] (row ++ [f]) rows]
          simp [headLine, afterNl, splitCommaFrom_comma]
        · simp only [csvAux, if_neg h1, if_neg hc.2, if_neg h4]
          rw [ihh.2 (f ++ [c]) row rows]
          simp [headLine, afterNl, h1, splitCommaFrom_other h4]

/-- On quote-free, CR-free text the csv reader produces exactly one row per
Python line, a blank line giving the empty row and any other line its plain
comma splitting. -/
lemma csvRows_clean (s : String) (h : ∀ c ∈ s.toList, c ≠ '"' ∧ c ≠ '\r') :
    csvRows s = .ok (linesRows s.toList) := by
  simpa [csvRows] using (csvAux_clean s.toList h).1 []

lemma read_csv_clean (s : String) (h : ∀ c ∈ s.toList, c ≠ '"' ∧ c ≠ '\r') :
    read_csv s = .ok ((pyLinesL s.toList).map fun l => mkRecord (lineFields l)) := by
  simp [read_csv, csvRows_clean s h, Except.map, linesRows]

/-! Facts about the record construction. -/

lemma mkRecord_path_none {row : List (List Char)} (h : (mkRecord row).path = none) :
    row = [] := by
  cases row with
  | nil => rfl
  | cons a l => simp [mkRecord] at h

lemma mkRecord_take (row : List (List Char)) : mkRecord row = mkRecord (row.take 5) := by
  rcases row with _ | ⟨a, _ | ⟨b, _ | ⟨c, _ | ⟨d, _ | ⟨e, row⟩⟩⟩⟩⟩ <;> simp [mkRecord]

/-! Facts about the regex search model. -/

lemma findFirst_leftmost : ∀ (cs : List Char) (pats : List (List Char)) (b : List Char),
    findFirst pats cs = some b →
    b ∈ pats ∧ ∃ i, b.isPrefixOf (cs.drop i) = true ∧
      ∀ j < i, ∀ q ∈ pats, q.isPrefixOf (cs.drop j) = false := by
  intro cs
  induction cs with
  | nil =>
    intro pats b h
    simp only [findFirst] at h
    exact ⟨List.mem_of_find?_eq_some h, 0,
      by simpa using List.find?_some h, fun j hj => absurd hj (Nat.not_lt_zero j)⟩
  | cons c cs ih =>
    intro pats b h
    simp only [findFirst] at h
    rcases hf : pats.find? (fun p => p.isPrefixOf (c :: cs)) with _ | p
    · rw [hf] at h
      obtain ⟨hm, i, hpre, hmin⟩ := ih pats b h
      refine ⟨hm, i + 1, by simpa [List.drop_succ_cons] using hpre, ?_⟩
      intro j hj q hq
      cases j with
      | zero =>
        exact Bool.eq_false_iff.mpr (List.find?_eq_none.mp hf q hq)
      | succ j =>
        have := hmin j (by omega) q hq
        simpa [List.drop_succ_cons] using this
    · rw [hf] at h
      cases h
      exact ⟨List.mem_of_find?_eq_some hf, 0,
        by simpa using List.find?_some hf, fun j hj => absurd hj (Nat.not_lt_zero j)⟩

lemma findFirst_eq_none (pats : List (List Char)) : ∀ cs : List Char,
    (∀ q ∈ pats, occursIn q cs = false) → findFirst pats cs = none := by
  intro cs
  induction cs with
  | nil =>
    intro h
    simp only [findFirst]
    exact List.find?_eq_none.mpr fun q hq => by
      have := h q hq
      simp only [occursIn] at this
      simp [this]
  | cons c cs ih =>
    intro h
    have h0 : ∀ q ∈ pats, q.isPrefixOf (c :: cs) = false := fun q hq =>
      (Bool.or_eq_false_iff.mp (by simpa only [occursIn] using h q hq)).1
    have h1 : ∀ q ∈ pats, occursIn q cs = false := fun q hq =>
      (Bool.or_eq_false_iff.mp (by simpa only [occursIn] using h q hq)).2
    simp only [findFirst]
    rw [List.find?_eq_none.mpr fun q hq => by simp [h0 q hq]]
    exact ih h1

/-- No two of the four browser identifiers can start at the same position of
the same text: none is a prefix of another. -/
lemma browser_types_unique_at {u q b : List Char} (hq : q ∈ browser_types)
    (hb : b ∈ browser_types) (h1 : q.isPrefixOf u = true) (h2 : b.isPrefixOf u = true) :
    q = b := by
  have h1p : q <+: u := List.isPrefixOf_iff_prefix.mp h1
  have h2p : b <+: u := List.isPrefixOf_iff_prefix.mp h2
  have hq4 : q = "Firefox".toList ∨ q = "Chrome".toList ∨
      q = "Internet Explorer".toList ∨ q = "Safari".toList := by
    simpa [browser_types] using hq
  have hb4 : b = "Firefox".toList ∨ b = "Chrome".toList ∨
      b = "Internet Explorer".toList ∨ b = "Safari".toList := by
    simpa [browser_types] using hb
  rcases List.prefix_or_prefix_of_prefix h1p h2p with h | h <;>
    rcases hq4 with rfl | rfl | rfl | rfl <;> rcases hb4 with rfl | rfl | rfl | rfl <;>
      first
        | rfl
        | (exact absurd h (by decide))

/-! Facts about the tally and about Python max. -/

lemma incr_keys (b : List Char) : ∀ d : List (List Char × Nat),
    (incr b d).map Prod.fst = d.map Prod.fst := by
  intro d
  induction d with
  | nil => rfl
  | cons e d ih =>
    by_cases h : e.1 = b <;> simp [incr, h] at ih ⊢ <;> exact ih

lemma tallyAux_keys : ∀ (rs : List Record) (t d : List (List Char × Nat)),
    tallyAux t rs = .ok d → d.map Prod.fst = t.map Prod.fst := by
  intro rs
  induction rs with
  | nil =>
    intro t d h
    simp only [tallyAux] at h
    cases h
    rfl
  | cons r rs ih =>
    intro t d h
    simp only [tallyAux] at h
    rcases hb : r.browser with _ | s
    · simp [hb] at h
    · simp only [hb] at h
      rcases hf : findFirst browser_types s with _ | b
      · simp only [hf] at h; exact ih t d h
      · simp only [hf] at h
        rw [ih (incr b t) d h, incr_keys]

lemma tallyAux_error : ∀ (rs : List Record) (t : List (List Char × Nat)),
    (∃ r ∈ rs, r.browser = none) → tallyAux t rs = .error "KeyError: browser" := by
  intro rs
  induction rs with
  | nil =>
    intro t h
    rcases h with ⟨r, hr, _⟩
    simp at hr
  | cons r rs ih =>
    intro t h
    rcases hb : r.browser with _ | s
    · simp [tallyAux, hb]
    · rcases h with ⟨r', hr', hb'⟩
      rcases List.mem_cons.mp hr' with h1 | h1
      · subst h1; rw [hb] at hb'; cases hb'
      · simp only [tallyAux, hb]
        rcases hf : findFirst browser_types s with _ | b
        · exact ih t ⟨r', h1, hb'⟩
        · exact ih (incr b t) ⟨r', h1, hb'⟩

lemma countImagesAux_error : ∀ (rs : List Record) (n : Nat),
    (∃ r ∈ rs, r.path = none) → countImagesAux n rs = .error "KeyError: path" := by
  intro rs
  induction rs with
  | nil =>
    intro n h
    rcases h with ⟨r, hr, _⟩
    simp at hr
  | cons r rs ih =>
    intro n h
    rcases hp : r.path with _ | p
    · simp [countImagesAux, hp]
    · rcases h with ⟨r', hr', hp'⟩
      rcases List.mem_cons.mp hr' with h1 | h1
      · subst h1; rw [hp] at hp'; cases hp'
      · simp only [countImagesAux, hp]
        exact ih _ ⟨r', h1, hp'⟩

lemma tally_single (r : Record) (s : List Char) (hb : r.browser = some s) :
    tallyBrowsers [r] =
      .ok (match findFirst browser_types s with
            | none => initCounts
            | some b => incr b initCounts) := by
  rcases hf : findFirst browser_types s with _ | b <;>
    simp [tallyBrowsers, tallyAux, hb, hf]

lemma count_images_single (r : Record) (p : List Char) (hp : r.path = some p) :
    count_images [r] = .ok (if imageMatch p then 1 else 0) := by
  rcases him : imageMatch p with _ | _ <;>
    simp [count_images, countImagesAux, hp, him]

lemma pyFoldMax_le {α : Type} (f : α → Nat) : ∀ (ks : List α) (b : α),
    f b ≤ f (pyFoldMax f b ks) := by
  intro ks
  induction ks with
  | nil => intro b; simp [pyFoldMax]
  | cons y ks ih =>
    intro b
    by_cases h : f y > f b
    · have : pyFoldMax f b (y :: ks) = pyFoldMax f y ks := by
        simp [pyFoldMax, List.foldl, if_pos h]
      rw [this]
      exact le_trans (le_of_lt h) (ih y)
    · have : pyFoldMax f b (y :: ks) = pyFoldMax f b ks := by
        simp [pyFoldMax, List.foldl, if_neg h]
      rw [this]
      exact ih b

lemma pyFoldMax_first {α : Type} (f : α → Nat) : ∀ (ks : List α) (b : α),
    ∃ pre post, b :: ks = pre ++ pyFoldMax f b ks :: post ∧
      (∀ y ∈ pre, f y < f (pyFoldMax f b ks)) ∧
      (∀ y ∈ post, f y ≤ f (pyFoldMax f b ks)) := by
  intro ks
  induction ks with
  | nil =>
    intro b
    exact ⟨[], [], by simp [pyFoldMax], by simp, by simp⟩
  | cons y ks ih =>
    intro b
    by_cases h : f y > f b
    · have hstep : pyFoldMax f b (y :: ks) = pyFoldMax f y ks := by
        simp [pyFoldMax, List.foldl, if_pos h]
      obtain ⟨pre, post, hdec, hpre, hpost⟩ := ih y
      rw [hstep]
      refine ⟨b :: pre, post, by simpa using congrArg (List.cons b) hdec, ?_, hpost⟩
      intro z hz
      rcases List.mem_cons.mp hz with rfl | hz
      · exact lt_of_lt_of_le h (pyFoldMax_le f ks y)
      · exact hpre z hz
    · have hstep : pyFoldMax f b (y :: ks) = pyFoldMax f b ks := by
        simp [pyFoldMax, List.foldl, if_neg h]
      obtain ⟨pre, post, hdec, hpre, hpost⟩ := ih b
      rw [hstep]
      cases pre with
      | nil =>
        have hm : b = pyFoldMax f b ks := (List.cons.inj (by simpa using hdec)).1
        have hpost' : ks = post := (List.cons.inj (by simpa using hdec)).2
        refine ⟨[], y :: ks, by simp [← hm], by simp, ?_⟩
        intro z hz
        rcases List.mem_cons.mp hz with rfl | hz
        · rw [← hm]; exact Nat.le_of_not_lt h
        · rw [hpost'] at hz
          exact hpost z hz
      | cons p pre =>
        have hp : p = b := ((List.cons.inj (by simpa using hdec)).1).symm
        have htail : ks = pre ++ pyFoldMax f b ks :: post :=
          (List.cons.inj (by simpa using hdec)).2
        have hbm : f b < f (pyFoldMax f b ks) := by
          have hh := hpre p (by simp)
          rwa [hp] at hh
        refine ⟨b :: y :: pre, post, ?_, ?_, hpost⟩
        · conv_lhs => rw [htail]
          simp
        · intro z hz
          rcases List.mem_cons.mp hz with rfl | hz
          · exact hbm
          · rcases List.mem_cons.mp hz with rfl | hz
            · exact lt_of_le_of_lt (Nat.le_of_not_lt h) hbm
            · exact hpre z (by simp [hz])

lemma find?_first_true {α : Type} (pb : α → Bool) : ∀ (pre : List α) (b : α) (post : List α),
    (∀ q ∈ pre, pb q = false) → pb b = true → (pre ++ b :: post).find? pb = some b := by
  intro pre
  induction pre with
  | nil => intro b post _ hb; simp [List.find?, hb]
  | cons p pre ih =>
    intro b post hpre hb
    have hp : pb p = false := hpre p (by simp)
    simp only [List.cons_append, List.find?, hp]
    exact ih b post (fun q hq => hpre q (by simp [hq])) hb

lemma pyLinesL_no_newline : ∀ cs : List Char, cs ≠ [] → (∀ c ∈ cs, c ≠ '\n') →
    pyLinesL cs = [cs] := by
  intro cs
  induction cs with
  | nil => intro h _; exact absurd rfl h
  | cons c cs ih =>
    intro _ h
    have hc : c ≠ '\n' := h c (by simp)
    rcases Decidable.em (cs = []) with h0 | h0
    · subst h0; simp [pyLinesL, hc]
    · simp [pyLinesL, hc, ih h0 fun x hx => h x (by simp [hx])]

lemma imageMatch_iff (p : List Char) : imageMatch p = true ↔
    ∃ e ∈ image_extensions, ∃ stem,
      stem ++ ('.' :: e) = p.map Char.toLower ∨
      stem ++ ('.' :: (e ++ ['\n'])) = p.map Char.toLower := by
  simp only [imageMatch, List.any_eq_true, Bool.or_eq_true, List.isSuffixOf_iff_suffix]
  constructor
  · rintro ⟨e, he, h | h⟩
    · obtain ⟨t, ht⟩ := h
      exact ⟨e, he, t, Or.inl ht⟩
    · obtain ⟨t, ht⟩ := h
      exact ⟨e, he, t, Or.inr ht⟩
  · rintro ⟨e, he, t, h | h⟩
    · exact ⟨e, he, Or.inl ⟨t, h⟩⟩
    · exact ⟨e, he, Or.inr ⟨t, h⟩⟩

/-! The claims. -/

/-- Claim C5 (confirmed): for every image count and total with total > 0, the
percentage calculator returns exactly `(image_count / total) * 100` (exact
rational division, modelling Python float division); it has no defined
behaviour at total = 0, where the division raises ZeroDivisionError and the
caller must guard. -/
theorem c5_percentage :
    (∀ i t : Int, 0 < t → find_image_percentage i t = .ok ((i : Rat) / (t : Rat) * 100)) ∧
    (∀ i : Int, find_image_percentage i 0 = .error "ZeroDivisionError: division by zero") := by
  constructor
  · intro i t ht
    have ht' : ¬t = 0 := by omega
    simp only [find_image_percentage, pydiv, if_neg ht']
    rfl
  · intro i
    simp only [find_image_percentage, pydiv, if_pos rfl]
    rfl

/-- Claim C5 witness: the percentage of 2 images out of 3 records. -/
theorem c5_witness : (0 : Int) < 3 ∧
    find_image_percentage 2 3 = .ok ((2 : Rat) / (3 : Rat) * 100) :=
  ⟨by norm_num, c5_percentage.1 2 3 (by norm_num)⟩

/-- Claim C4 counterexample: a record whose `path` is `"a.jpg\n"` is counted
as an image by `count_images` although the path does not end with a dot
followed by a recognised extension (the claimed suffix anchoring fails,
because `$` also matches before a trailing newline). -/
theorem c4_counterexample :
    count_images [(⟨some "a.jpg\n".toList, none, none, none, none⟩ : Record)] = .ok 1 ∧
    (∀ e ∈ image_extensions,
      ('.' :: e).isSuffixOf ("a.jpg\n".toList.map Char.toLower) = false) :=
  ⟨by decide, by decide⟩

/-- Claim C4 (corrected): a record with a `path` field is counted as an image
(count 1, otherwise 0) if and only if the path, lowercased, ends with a
literal dot followed by one of `jpg`, `gif`, `png` — either at the very end of
the string or immediately before one final newline character. -/
theorem c4_suffix_match : ∀ (r : Record) (p : List Char), r.path = some p →
    (count_images [r] = .ok 1 ∨ count_images [r] = .ok 0) ∧
    (count_images [r] = .ok 1 ↔ ∃ e ∈ image_extensions, ∃ stem,
      stem ++ ('.' :: e) = p.map Char.toLower ∨
      stem ++ ('.' :: (e ++ ['\n'])) = p.map Char.toLower) := by
  intro r p hp
  have hc := count_images_single r p hp
  by_cases him : imageMatch p = true
  · refine ⟨Or.inl (by rw [hc, if_pos him]), ?_⟩
    rw [hc, if_pos him]
    exact ⟨fun _ => (imageMatch_iff p).mp him, fun _ => rfl⟩
  · have him' : imageMatch p = false := by simpa using him
    refine ⟨Or.inr (by rw [hc, if_neg (by simp [him'])]), ?_⟩
    rw [hc, if_neg (by simp [him'])]
    constructor
    · intro hcontra; exact absurd hcontra (by simp)
    · intro hex; exact absurd ((imageMatch_iff p).mpr hex) (by simp [him'])

/-- Claim C4 witness: `image.jpg` is classified as an image and the suffix
characterisation holds for it. -/
theorem c4_witness :
    (count_images [(⟨some "image.jpg".toList, none, none, none, none⟩ : Record)] = .ok 1 ∨
      count_images [(⟨some "image.jpg".toList, none, none, none, none⟩ : Record)] = .ok 0) ∧
    (count_images [(⟨some "image.jpg".toList, none, none, none, none⟩ : Record)] = .ok 1 ↔
      ∃ e ∈ image_extensions, ∃ stem,
        stem ++ ('.' :: e) = "image.jpg".toList.map Char.toLower ∨
        stem ++ ('.' :: (e ++ ['\n'])) = "image.jpg".toList.map Char.toLower) :=
  c4_suffix_match _ _ rfl

/-- Claim C2 counterexample: the two-column line `"a,b"` parses to a record
without a `browser` field, and browser detection on that record raises
KeyError instead of completing. -/
theorem c2_counterexample :
    read_csv "a,b" = .ok [⟨some ['a'], some ['b'], none, none, none⟩] ∧
    find_most_used_browser [⟨some ['a'], some ['b'], none, none, none⟩] =
      .error "KeyError: browser" :=
  ⟨by decide, by decide⟩

/-- Claim C2 (corrected): on any record list containing a record without a
`path` field, image classification raises KeyError; on any record list
containing a record without a `browser` field, browser detection raises
KeyError.  Neither completes silently. -/
theorem c2_keyerror :
    (∀ rs : List Record, (∃ r ∈ rs, r.path = none) →
      count_images rs = .error "KeyError: path") ∧
    (∀ rs : List Record, (∃ r ∈ rs, r.browser = none) →
      find_most_used_browser rs = .error "KeyError: browser") := by
  constructor
  · intro rs h
    exact countImagesAux_error rs 0 h
  · intro rs h
    have ht := tallyAux_error rs initCounts h
    simp [find_most_used_browser, tallyBrowsers, ht]

/-- Claim C2 witness: both KeyErrors on the empty record. -/
theorem c2_witness :
    count_images [(⟨none, none, none, none, none⟩ : Record)] = .error "KeyError: path" ∧
    find_most_used_browser [(⟨none, none, none, none, none⟩ : Record)] =
      .error "KeyError: browser" :=
  ⟨c2_keyerror.1 _ ⟨⟨none, none, none, none, none⟩, by simp, rfl⟩,
   c2_keyerror.2 _ ⟨⟨none, none, none, none, none⟩, by simp, rfl⟩⟩

/-- Claim C9 (confirmed): browser identifier matching is case-sensitive: a
record whose `browser` field contains a recognised identifier only in a
different letter case (it occurs case-insensitively but no identifier occurs
verbatim) leaves the tally at its all-zero initial state. -/
theorem c9_case_sensitive : ∀ (r : Record) (s : List Char), r.browser = some s →
    (∃ q ∈ browser_types, occursIn (q.map Char.toLower) (s.map Char.toLower) = true) →
    (∀ q ∈ browser_types, occursIn q s = false) →
    tallyBrowsers [r] = .ok initCounts := by
  intro r s hb _ hnone
  have hn : findFirst browser_types s = none := findFirst_eq_none browser_types s hnone
  rw [tally_single r s hb, hn]

/-- Claim C9 witness: the field `"firefox CHROME"` contains two identifiers
case-insensitively but increments no tally. -/
theorem c9_witness :
    (∃ q ∈ browser_types,
      occursIn (q.map Char.toLower) ("firefox CHROME".toList.map Char.toLower) = true) ∧
    (∀ q ∈ browser_types, occursIn q "firefox CHROME".toList = false) ∧
    tallyBrowsers [(⟨none, none, some "firefox CHROME".toList, none, none⟩ : Record)] =
      .ok initCounts :=
  ⟨by decide, by decide, c9_case_sensitive _ _ rfl (by decide) (by decide)⟩

/-- Claim C1 counterexample: the field `"Safari and Chrome 1.0"` contains two
recognised identifiers; the claim predicts the tally of `Chrome` (first in the
fixed list) is incremented, but the code increments `Safari`, whose occurrence
is leftmost in the text, and reports it as most used. -/
theorem c1_counterexample :
    (tallyBrowsers
        [(⟨none, none, some "Safari and Chrome 1.0".toList, none, none⟩ : Record)]).map
      (fun d => (dictGet d "Chrome".toList, dictGet d "Safari".toList)) = .ok (0, 1) ∧
    find_most_used_browser
        [(⟨none, none, some "Safari and Chrome 1.0".toList, none, none⟩ : Record)] =
      .ok "Safari".toList :=
  ⟨by decide, by decide⟩

/-- Claim C1 (corrected): scanning a record whose `browser` field matches some
identifier increments exactly the tally of the matched identifier `b`, and `b`
is the identifier whose occurrence starts leftmost in the field text (no
identifier occurs at any earlier position, and no other identifier can start
at the same position) — a leftmost-in-text policy, not first-match-in-list. -/
theorem c1_leftmost : ∀ (r : Record) (s b : List Char) (d : List (List Char × Nat)),
    r.browser = some s → findFirst browser_types s = some b → tallyBrowsers [r] = .ok d →
    (dictGet d b = 1 ∧ ∀ q ∈ browser_types, q ≠ b → dictGet d q = 0) ∧
    ∃ i, b.isPrefixOf (s.drop i) = true ∧
      (∀ j < i, ∀ q ∈ browser_types, q.isPrefixOf (s.drop j) = false) ∧
      (∀ q ∈ browser_types, q.isPrefixOf (s.drop i) = true → q = b) := by
  intro r s b d hb hf hd
  obtain ⟨hmem, i, hpre, hmin⟩ := findFirst_leftmost s browser_types b hf
  have hd' : d = incr b initCounts := by
    rw [tally_single r s hb, hf] at hd
    exact (Except.ok.inj hd).symm
  subst hd'
  have hb4 : b = "Firefox".toList ∨ b = "Chrome".toList ∨
      b = "Internet Explorer".toList ∨ b = "Safari".toList := by
    simpa [browser_types] using hmem
  refine ⟨⟨?_, ?_⟩, i, hpre, hmin, ?_⟩
  · rcases hb4 with rfl | rfl | rfl | rfl <;> decide
  · intro q hq
    have hq4 : q = "Firefox".toList ∨ q = "Chrome".toList ∨
        q = "Internet Explorer".toList ∨ q = "Safari".toList := by
      simpa [browser_types] using hq
    rcases hq4 with rfl | rfl | rfl | rfl <;> rcases hb4 with rfl | rfl | rfl | rfl <;>
      first
        | (intro hne; exact absurd rfl hne)
        | (intro _; decide)
  · intro q hq hqp
    exact browser_types_unique_at hq hmem hqp hpre

/-- Claim C1 witness: the field `"Mozilla Firefox 88"` increments exactly the
Firefox tally, and Firefox is the leftmost identifier occurrence. -/
theorem c1_witness :
    (dictGet (incr "Firefox".toList initCounts) "Firefox".toList = 1 ∧
      ∀ q ∈ browser_types, q ≠ "Firefox".toList →
        dictGet (incr "Firefox".toList initCounts) q = 0) ∧
    ∃ i, ("Firefox".toList).isPrefixOf ("Mozilla Firefox 88".toList.drop i) = true ∧
      (∀ j < i, ∀ q ∈ browser_types,
        q.isPrefixOf ("Mozilla Firefox 88".toList.drop j) = false) ∧
      (∀ q ∈ browser_types,
        q.isPrefixOf ("Mozilla Firefox 88".toList.drop i) = true → q = "Firefox".toList) :=
  c1_leftmost ⟨none, none, some "Mozilla Firefox 88".toList, none, none⟩
    "Mozilla Firefox 88".toList "Firefox".toList (incr "Firefox".toList initCounts)
    rfl (by decide) (by decide)

/-- Claim C3 (confirmed): whenever browser detection returns an identifier
`b` for a final tally `d`, `b` attains the maximum count over the fixed
identifier list and is the first list entry attaining it (the first entry
whose count is at least the count of `b`); in particular a 2-2 Firefox/Chrome
tie yields Firefox, and the empty record list (all-zero tally) yields
Firefox, the first list entry. -/
theorem c3_first_max :
    (∀ (rs : List Record) (d : List (List Char × Nat)) (b : List Char),
        tallyBrowsers rs = .ok d → find_most_used_browser rs = .ok b →
        (∀ q ∈ browser_types, dictGet d q ≤ dictGet d b) ∧
        browser_types.find? (fun q => decide (dictGet d b ≤ dictGet d q)) = some b) ∧
    find_most_used_browser
        [⟨none, none, some "Firefox 1".toList, none, none⟩,
         ⟨none, none, some "Chrome 1".toList, none, none⟩,
         ⟨none, none, some "Firefox 2".toList, none, none⟩,
         ⟨none, none, some "Chrome 2".toList, none, none⟩] = .ok "Firefox".toList ∧
    find_most_used_browser [] = .ok "Firefox".toList := by
  refine ⟨?_, by decide, by decide⟩
  intro rs d b hd hb
  have hkeys : d.map Prod.fst = browser_types := by
    rw [tallyAux_keys rs initCounts d hd]
    decide
  simp only [find_most_used_browser, hd] at hb
  rw [hkeys] at hb
  simp only [browser_types, pymaxList] at hb
  have hbm : b = pyFoldMax (dictGet d) "Firefox".toList
      ["Chrome".toList, "Internet Explorer".toList, "Safari".toList] :=
    (Except.ok.inj hb).symm
  subst hbm
  obtain ⟨pre, post, hdec, hpre, hpost⟩ := pyFoldMax_first (dictGet d)
    ["Chrome".toList, "Internet Explorer".toList, "Safari".toList] "Firefox".toList
  have hbt : browser_types = pre ++ pyFoldMax (dictGet d) "Firefox".toList
      ["Chrome".toList, "Internet Explorer".toList, "Safari".toList] :: post := hdec
  constructor
  · intro q hq
    rw [hbt] at hq
    rcases List.mem_append.mp hq with hq1 | hq2
    · exact le_of_lt (hpre q hq1)
    · rcases List.mem_cons.mp hq2 with rfl | hq3
      · exact le_refl _
      · exact hpost q hq3
  · rw [hbt]
    apply find?_first_true
    · intro q hq
      simp only [decide_eq_false_iff_not]
      exact Nat.not_le.mpr (hpre q hq)
    · simp

/-- Claim C3 witness: on the empty record list the tally is all-zero and the
detector picks Firefox, the first list entry attaining the maximum. -/
theorem c3_witness :
    (∀ q ∈ browser_types, dictGet initCounts q ≤ dictGet initCounts "Firefox".toList) ∧
    browser_types.find?
      (fun q => decide (dictGet initCounts "Firefox".toList ≤ dictGet initCounts q)) =
      some "Firefox".toList :=
  c3_first_max.1 [] initCounts "Firefox".toList rfl (by decide)

/-- Claim C6 counterexample: on the line `"a,b",c` the parser applies csv
quote interpretation — the first field is `a,b` — while plain comma splitting
with no quoting, as the claim states, would give first field `"a`. -/
theorem c6_counterexample :
    read_csv "\"a,b\",c" = .ok [⟨some "a,b".toList, some ['c'], none, none, none⟩] ∧
    mkRecord (splitComma "\"a,b\",c".toList) ≠
      (⟨some "a,b".toList, some ['c'], none, none, none⟩ : Record) ∧
    (mkRecord (splitComma "\"a,b\",c".toList)).path = some "\"a".toList :=
  ⟨by decide, by decide, by decide⟩

/-- Claim C6 (corrected): for every nonempty line free of quote, CR and
newline characters, the parser splits the line at each single comma exactly
like plain comma splitting and pairs the fields positionally with the five
column names, stopping at the shorter side (fields beyond the fifth are
discarded, names beyond the number of fields stay absent); quote characters
instead trigger csv quoting rules. -/
theorem c6_plain_split :
    (∀ l : String, l.toList ≠ [] →
      (∀ c ∈ l.toList, c ≠ '"' ∧ c ≠ '\r' ∧ c ≠ '\n') →
      read_csv l = .ok [mkRecord (splitComma l.toList)]) ∧
    (∀ row : List (List Char), mkRecord row = mkRecord (row.take 5)) := by
  refine ⟨?_, mkRecord_take⟩
  intro l hne h
  have h' : ∀ c ∈ l.toList, c ≠ '"' ∧ c ≠ '\r' := fun c hc => ⟨(h c hc).1, (h c hc).2.1⟩
  rw [read_csv_clean l h']
  rw [pyLinesL_no_newline l.toList hne fun c hc => (h c hc).2.2]
  simp [lineFields, show l.data ≠ [] from hne]

/-- Claim C6 witness: the quote-free line `a,b` parses to one record with
`path` `a` and `datetime_accessed` `b`, matching plain comma splitting. -/
theorem c6_witness : "a,b".toList ≠ [] ∧
    read_csv "a,b" = .ok [mkRecord (splitComma "a,b".toList)] :=
  ⟨by decide, c6_plain_split.1 "a,b" (by decide) (by decide)⟩

/-- Claim C7 counterexample: the text `"a\n\n"` has one line that is not a
trailing empty line, but the parser produces two records — the blank line
before the final newline also yields a (empty) record. -/
theorem c7_counterexample :
    (read_csv "a\n\n").map List.length = .ok 2 ∧ claimC7LineCount "a\n\n" = 1 :=
  ⟨by decide, by decide⟩

/-- Claim C7 (corrected): for every quote-free, CR-free text, the number of
records equals the number of Python lines of the text: a trailing newline
opens no extra line, but every line before a newline — blank lines included —
yields exactly one record; no header row is skipped.  (Quoted fields may span
lines and lower the count.) -/
theorem c7_line_count : ∀ s : String, '"' ∉ s.toList → '\r' ∉ s.toList →
    (read_csv s).map List.length = .ok (pyLinesL s.toList).length := by
  intro s h1 h2
  have h : ∀ c ∈ s.toList, c ≠ '"' ∧ c ≠ '\r' := fun c hc =>
    ⟨fun e => h1 (e ▸ hc), fun e => h2 (e ▸ hc)⟩
  rw [read_csv_clean s h]
  simp [Except.map]

/-- Claim C7 witness: `"a\nb\n"` parses to as many records as it has lines. -/
theorem c7_witness : '"' ∉ "a\nb\n".toList ∧ '\r' ∉ "a\nb\n".toList ∧
    (read_csv "a\nb\n").map List.length = .ok (pyLinesL "a\nb\n".toList).length :=
  ⟨by decide, by decide, c7_line_count "a\nb\n" (by decide) (by decide)⟩

/-- Claim C8 (confirmed): on the three-line example text the pipeline yields
3 records, 2 images, the exact percentage `(2/3)*100` (whose two-decimal
rendering is 66.67), most-used browser Firefox, and tally Firefox 2,
Chrome 1. -/
theorem c8_end_to_end :
    (read_csv exampleText).map List.length = .ok 3 ∧
    (read_csv exampleText).bind count_images = .ok 2 ∧
    find_image_percentage 2 3 = .ok ((2 : Rat) / 3 * 100) ∧
    ⌊(2 : Rat) / 3 * 100 * 100 + 1 / 2⌋ = 6667 ∧
    (6667 : Rat) / 100 = 66.67 ∧
    (read_csv exampleText).bind find_most_used_browser = .ok "Firefox".toList ∧
    ((read_csv exampleText).bind tallyBrowsers).map
      (fun d => (dictGet d "Firefox".toList, dictGet d "Chrome".toList)) = .ok (2, 1) := by
  refine ⟨?_, ?_, ?_, ?_, ?_, ?_, ?_⟩
  · set_option maxRecDepth 8000 in decide
  · set_option maxRecDepth 8000 in decide
  · simp only [find_image_percentage, pydiv, if_neg (by norm_num : ¬(3 : Int) = 0)]
    norm_num [Except.map]
  · rw [Int.floor_eq_iff]
    norm_num
  · norm_num
  · set_option maxRecDepth 8000 in decide
  · set_option maxRecDepth 8000 in decide

/-- Claim C10 counterexample: the blank middle line of `"a\n\nb"` yields an
empty record with no `path` field (not no record at all), and image
classification over the parser output raises KeyError on it. -/
theorem c10_counterexample :
    read_csv "a\n\nb" = .ok
      [⟨some ['a'], none, none, none, none⟩, ⟨none, none, none, none, none⟩,
       ⟨some ['b'], none, none, none, none⟩] ∧
    (read_csv "a\n\nb").bind count_images = .error "KeyError: path" :=
  ⟨by decide, by decide⟩

/-- Claim C10 (corrected): for quote-free, CR-free input the parser produces
one record per Python line; a record lacks `path` exactly when it comes from a
blank line, in which case it is the fully empty record, and every record from
a non-blank line has `path` present; consequently, when parser output does
contain a blank-line record, the image classifier raises KeyError rather than
never encountering it. -/
theorem c10_blank_lines : ∀ s : String, '"' ∉ s.toList → '\r' ∉ s.toList →
    ∀ rs : List Record, read_csv s = .ok rs →
    rs = (pyLinesL s.toList).map (fun l => mkRecord (lineFields l)) ∧
    (∀ l ∈ pyLinesL s.toList, l ≠ [] → (mkRecord (lineFields l)).path ≠ none) ∧
    (∀ r ∈ rs, r.path = none → r = ⟨none, none, none, none, none⟩) ∧
    ((∃ r ∈ rs, r.path = none) → count_images rs = .error "KeyError: path") := by
  intro s h1 h2 rs hrs
  have h : ∀ c ∈ s.toList, c ≠ '"' ∧ c ≠ '\r' := fun c hc =>
    ⟨fun e => h1 (e ▸ hc), fun e => h2 (e ▸ hc)⟩
  have hclean := read_csv_clean s h
  rw [hclean] at hrs
  have hrseq : rs = (pyLinesL s.toList).map (fun l => mkRecord (lineFields l)) :=
    (Except.ok.inj hrs).symm
  refine ⟨hrseq, ?_, ?_, fun hex => countImagesAux_error rs 0 hex⟩
  · intro l _ hlne hnone
    have hfields : lineFields l = [] := mkRecord_path_none hnone
    rw [lineFields, if_neg hlne] at hfields
    exact splitCommaFrom_ne_nil [] l hfields
  · intro r hr hnone
    rw [hrseq] at hr
    obtain ⟨l, _, hrl⟩ := List.mem_map.mp hr
    have hfields : lineFields l = [] :=
      mkRecord_path_none (by rw [hrl]; exact hnone)
    rw [← hrl, hfields]
    rfl

/-- Claim C10 witness: the characterisation instantiated on `"a\n\nb"`. -/
theorem c10_witness :
    [(⟨some ['a'], none, none, none, none⟩ : Record), ⟨none, none, none, none, none⟩,
        ⟨some ['b'], none, none, none, none⟩] =
      (pyLinesL "a\n\nb".toList).map (fun l => mkRecord (lineFields l)) ∧
    (∀ l ∈ pyLinesL "a\n\nb".toList, l ≠ [] → (mkRecord (lineFields l)).path ≠ none) ∧
    (∀ r ∈ [(⟨some ['a'], none, none, none, none⟩ : Record),
        ⟨none, none, none, none, none⟩, ⟨some ['b'], none, none, none, none⟩],
      r.path = none → r = ⟨none, none, none, none, none⟩) ∧
    ((∃ r ∈ [(⟨some ['a'], none, none, none, none⟩ : Record),
        ⟨none, none, none, none, none⟩, ⟨some ['b'], none, none, none, none⟩],
      r.path = none) →
      count_images [(⟨some ['a'], none, none, none, none⟩ : Record),
        ⟨none, none, none, none, none⟩, ⟨some ['b'], none, none, none, none⟩] =
        .error "KeyError: path") :=
  c10_blank_lines "a\n\nb" (by decide) (by decide) _ (by decide)

end Assignment3
